import Mathlib

/-!
Verification of FlawlessAPI core components against their specification.

Shallow embedding of the Python sources:
  - `src/queue/task_queue.py`   (priority task queue, consumers)
  - `src/circuit_breaker.py`    (three-state circuit breaker)
  - `src/cache/lru_cache.py`    (LRU + TTL cache)
  - `src/router/core.py`        (trie router, middleware chain, dispatch)
  - `src/middleware/rate_limit.py` (token bucket limiter)
  - `src/response.py`           (response envelope and JSON emission)

Machine integers and wall-clock times are modelled as `Nat` (Python uses
floats from `time.time()`, always positive in practice; where a proof needs
positivity it is an explicit hypothesis).  Python dicts (`OrderedDict`
included) are modelled as insertion-ordered association lists.
-/

namespace FlawlessAPI

/-- Decidable equality for `Except`, used to evaluate the models on concrete
inputs. -/
instance {ε α : Type} [DecidableEq ε] [DecidableEq α] : DecidableEq (Except ε α) := fun x y =>
  match x, y with
  | .ok a, .ok b =>
    if h : a = b then .isTrue (by subst h; rfl)
    else .isFalse (fun he => h (Except.ok.inj he))
  | .error a, .error b =>
    if h : a = b then .isTrue (by subst h; rfl)
    else .isFalse (fun he => h (Except.error.inj he))
  | .ok _, .error _ => .isFalse (fun he => Except.noConfusion he)
  | .error _, .ok _ => .isFalse (fun he => Except.noConfusion he)

/-! ### Ordered-dictionary primitives

Python `dict` / `collections.OrderedDict` as insertion-ordered association
lists: lookup, membership, in-place assignment (keeps position of an existing
key, appends a fresh key), deletion, and `move_to_end`. -/

/-- Lookup of a key in an insertion-ordered dict (first, hence only, binding). -/
def dget {κ β : Type} [DecidableEq κ] (k : κ) : List (κ × β) → Option β
  | [] => none
  | (a, b) :: t => if a = k then some b else dget k t

/-- Membership test, `k in d`. -/
def dmem {κ β : Type} [DecidableEq κ] (k : κ) (d : List (κ × β)) : Bool :=
  (dget k d).isSome

/-- Assignment `d[k] = v`: replaces the value in place when the key exists,
otherwise appends the new binding at the end (CPython dict semantics). -/
def dset {κ β : Type} [DecidableEq κ] (k : κ) (v : β) : List (κ × β) → List (κ × β)
  | [] => [(k, v)]
  | (a, b) :: t => if a = k then (a, v) :: t else (a, b) :: dset k v t

/-- Deletion `del d[k]` / `d.pop(k)`: removes the binding of `k` when present. -/
def drem {κ β : Type} [DecidableEq κ] (k : κ) : List (κ × β) → List (κ × β)
  | [] => []
  | (a, b) :: t => if a = k then t else (a, b) :: drem k t

/-- OrderedDict `move_to_end(k)`: the binding of `k` moves to the tail
(most-recent position); a dict without the key is returned unchanged
(the source only calls it when the key is present). -/
def moveToEnd {κ β : Type} [DecidableEq κ] (k : κ) (d : List (κ × β)) : List (κ × β) :=
  match dget k d with
  | none => d
  | some v => drem k d ++ [(k, v)]

/-! ### CPython `heapq` on lists

`asyncio.PriorityQueue` stores its entries in a list manipulated by
`heapq.heappush` / `heapq.heappop`; these are the CPython reference
implementations (`_siftdown`, `_siftup`) transcribed over `List α` with an
explicit strict-order test `lt`.  Index reads use `getD` with the current
new-item as the default; all indices hit by the algorithm are in range, so
the default is never consulted. -/

/-- CPython `heapq._siftdown(heap, startpos, pos)`: bubble `newitem` up
towards the root while it is strictly less than its parent. -/
def siftdownLoop {α : Type} (lt : α → α → Bool) (newitem : α) (startpos : Nat)
    (heap : List α) (pos : Nat) : List α :=
  if h : startpos < pos then
    let parentpos := (pos - 1) / 2
    let parent := heap.getD parentpos newitem
    if lt newitem parent then
      siftdownLoop lt newitem startpos (heap.set pos parent) parentpos
    else
      heap.set pos newitem
  else
    heap.set pos newitem
termination_by pos
decreasing_by
  have h2 := Nat.div_le_self (pos - 1) 2
  omega

/-- Loop of CPython `heapq._siftup(heap, pos)`: walk `pos` down to a leaf,
promoting the smaller child at each step; returns the updated heap and the
final leaf position. -/
def siftupLoop {α : Type} (lt : α → α → Bool) (newitem : α)
    (heap : List α) (pos : Nat) : List α × Nat :=
  let endpos := heap.length
  let childpos := 2 * pos + 1
  if h : childpos < endpos then
    let rightpos := childpos + 1
    let cp :=
      if rightpos < endpos && !(lt (heap.getD childpos newitem) (heap.getD rightpos newitem))
      then rightpos else childpos
    siftupLoop lt newitem (heap.set pos (heap.getD cp newitem)) cp
  else
    (heap, pos)
termination_by heap.length - pos
decreasing_by
  simp only [List.length_set]
  split <;> omega

/-- CPython `heapq._siftup(heap, pos)`: move the root of the affected subtree
to a leaf, place `newitem` there and let `_siftdown` restore the invariant. -/
def siftup {α : Type} (lt : α → α → Bool) (newitem : α) (heap : List α) (pos : Nat) : List α :=
  let r := siftupLoop lt newitem heap pos
  siftdownLoop lt newitem pos (r.1.set r.2 newitem) r.2

/-- CPython `heapq.heappush(heap, item)`. -/
def heappush {α : Type} (lt : α → α → Bool) (heap : List α) (item : α) : List α :=
  siftdownLoop lt item 0 (heap ++ [item]) heap.length

/-- CPython `heapq.heappop(heap)`: pops the last element; when the heap stays
non-empty the root is returned and the popped element sifted down from the
root.  An empty heap yields `none` (the `asyncio` queue would block). -/
def heappop {α : Type} (lt : α → α → Bool) : List α → Option α × List α
  | [] => (none, [])
  | [x] => (some x, [])
  | x :: y :: ys =>
    let rest := (x :: y :: ys).dropLast
    let lastelt := (x :: y :: ys).getLast (by simp)
    (some x, siftup lt lastelt (lastelt :: rest.tail) 0)

/-! ### Task queue (`src/queue/task_queue.py`)

`TaskPriority` values: LOW = 0, NORMAL = 1, HIGH = 2.  `TaskQueue.add_task`
puts the tuple `(priority.value, task_type, task)` into an
`asyncio.PriorityQueue`, i.e. a `heapq` min-heap ordered by Python tuple
comparison.  A tuple comparison finds the first component where the two
tuples differ (`==`) and compares it with `<`; `Task` has no `__eq__`, so
distinct task objects always reach `Task.__lt__`, which is
`self.priority.value > other.priority.value`. -/

/-- Status values of `TaskStatus`. -/
inductive TaskStatus where
  | pending | running | completed | failed | retrying | cancelled
deriving DecidableEq, Repr

/-- Identity of a `Task` object as needed by queue entries: the object
(identified by `tid`, standing for its `uuid4` id) and its `priority.value`. -/
structure TaskRef where
  tid : Nat
  pval : Nat
deriving DecidableEq, Repr

/-- Entry of the `asyncio.PriorityQueue`: `(priority.value, task_type, task)`. -/
abbrev QEntry := Nat × String × TaskRef

/-- Python `<` on queue entries: tuple comparison, with `Task.__lt__`
(`self.priority.value > other.priority.value`) on the third component; the
same task object compares equal to itself. -/
def entryLt (a b : QEntry) : Bool :=
  if a.1 = b.1 then
    if a.2.1 = b.2.1 then
      if a.2.2 = b.2.2 then false
      else decide (a.2.2.pval > b.2.2.pval)
    else decide (a.2.1 < b.2.1)
  else decide (a.1 < b.1)

/-- Mutable record of a task held in `TaskQueue.tasks`, restricted to the
fields the claims are about. -/
structure TaskRec where
  pval : Nat
  status : TaskStatus
deriving DecidableEq, Repr

/-- State of a `TaskQueue` plus the consumer-side observation log `invoked`
(which task functions have been called by `Consumer._process_task`). -/
structure TQState where
  heap : List QEntry := []
  tasks : List (Nat × TaskRec) := []
  nextId : Nat := 0
  invoked : List Nat := []
deriving DecidableEq, Repr

/-- Method `TaskQueue.add_task(func, priority=…, task_type=…)`: registers the
task as PENDING and pushes `(priority.value, task_type, task)` onto the
priority queue; returns the new task id.  Task ids are modelled as a counter
standing in for `uuid.uuid4()`. -/
def addTask (st : TQState) (pval : Nat) (taskType : String) : Nat × TQState :=
  let tid := st.nextId
  ( tid
  , { st with
      tasks := dset tid { pval := pval, status := .pending } st.tasks
      nextId := tid + 1
      heap := heappush entryLt st.heap (pval, taskType, ⟨tid, pval⟩) } )

/-- Method `TaskQueue.get_task(task_types)`: pops the next heap entry; a
matching `task_type` yields the task, otherwise the entry is re-pushed as
`(task.priority.value, task_type, task)` and nothing is returned.  An empty
queue blocks in the source; here it yields `none`. -/
def getTask (st : TQState) (taskTypes : List String) : Option TaskRef × TQState :=
  match heappop entryLt st.heap with
  | (none, h) => (none, { st with heap := h })
  | (some (_, ty, task), h) =>
    if ty ∈ taskTypes then (some task, { st with heap := h })
    else (none, { st with heap := heappush entryLt h (task.pval, ty, task) })

/-- Method `TaskQueue.cancel_task(task_id)`: flips a PENDING or RETRYING task
to CANCELLED and reports success; the heap is not touched. -/
def cancelTask (st : TQState) (tid : Nat) : Bool × TQState :=
  match dget tid st.tasks with
  | none => (false, st)
  | some r =>
    if r.status = .pending ∨ r.status = .retrying then
      (true, { st with tasks := dset tid { r with status := .cancelled } st.tasks })
    else (false, st)

/-- Start of `Consumer._process_task(task)` (lines 80–85): unconditionally
sets `task.status = RUNNING` and invokes `task.func`; the invocation is
recorded in the `invoked` log.  No status is checked beforehand. -/
def processTaskStart (st : TQState) (task : TaskRef) : TQState :=
  let st1 :=
    match dget task.tid st.tasks with
    | some r => { st with tasks := dset task.tid { r with status := .running } st.tasks }
    | none => st
  { st1 with invoked := st1.invoked ++ [task.tid] }

/-! ### Circuit breaker (`src/circuit_breaker.py`) -/

/-- Breaker states `'CLOSED' / 'OPEN' / 'HALF-OPEN'`. -/
inductive CBState where
  | closedS | openS | halfOpenS
deriving DecidableEq, Repr

/-- Fields of `CircuitBreaker.__init__`. -/
structure CircuitBreaker where
  failureThreshold : Nat := 5
  resetTimeout : Nat := 60
  failures : Nat := 0
  lastFailureTime : Nat := 0
  state : CBState := .closedS
deriving DecidableEq, Repr

/-- Branch `timing == 'before'` of `CircuitBreaker.__call__`: in OPEN the
request is rejected (`raise Exception("Circuit breaker is OPEN")`) unless the
reset timeout has elapsed, in which case the state becomes HALF-OPEN and the
request is admitted; in HALF-OPEN the body is `pass`, so the request is
admitted with no state change; CLOSED admits. -/
def cbBefore (now : Nat) (cb : CircuitBreaker) : Except String CircuitBreaker :=
  match cb.state with
  | .openS =>
    if now - cb.lastFailureTime > cb.resetTimeout then
      .ok { cb with state := .halfOpenS }
    else
      .error "Circuit breaker is OPEN"
  | .halfOpenS => .ok cb
  | .closedS => .ok cb

/-- Branch `timing == 'after'` of `CircuitBreaker.__call__`, with
`statusCode = scope.get('status_code', 200)`: a 5xx bumps the failure count
(tripping to OPEN at the threshold), anything else resets the count and
closes a HALF-OPEN breaker. -/
def cbAfter (now statusCode : Nat) (cb : CircuitBreaker) : CircuitBreaker :=
  if statusCode ≥ 500 then
    let f := cb.failures + 1
    { cb with
      failures := f
      lastFailureTime := now
      state := if f ≥ cb.failureThreshold then .openS else cb.state }
  else
    { cb with
      state := if cb.state = .halfOpenS then .closedS else cb.state
      failures := 0 }

/-! ### LRU + TTL cache (`src/cache/lru_cache.py`)

The cache is an `OrderedDict` keyed by strings; most-recently-used entries
sit at the tail.  The embedding models a cache constructed with the default
`max_memory_mb=None`, for which the memory-ceiling branch of `set` is
skipped (`if self.max_memory and …` is falsy).  Expiry timestamps are
`Option Nat`; Python float truthiness makes `if item.expire_at and …` skip
the check both for `None` and for `0`, which the model reproduces. -/

/-- Fields of `CacheItem.__init__`. -/
structure CacheItem (α : Type) where
  value : α
  expireAt : Option Nat
  accessCount : Nat := 0
  createdAt : Nat := 0
deriving DecidableEq, Repr

/-- State of an `LRUCache`: the ordered dict, the configuration, and the
hit/miss counters (the fields the claims are about). -/
structure LRUState (α : Type) where
  cache : List (String × CacheItem α) := []
  capacity : Nat := 1000
  ttl : Nat := 3600
  hits : Nat := 0
  misses : Nat := 0
deriving DecidableEq, Repr

/-- Fresh cache as built by `LRUCache.__init__(capacity, …, ttl)`. -/
def lruNew (capacity ttl : Nat) : LRUState α :=
  { cache := [], capacity := capacity, ttl := ttl, hits := 0, misses := 0 }

/-- Python condition `item.expire_at and current_time > item.expire_at`:
falsy for `None` and for `0`. -/
def expiredCheck (expireAt : Option Nat) (now : Nat) : Bool :=
  match expireAt with
  | none => false
  | some e => decide (e ≠ 0) && decide (now > e)

/-- Method `LRUCache.get(key)` at wall-clock `now`: a missing key counts a
miss; an expired entry is dropped and counts a miss; otherwise the access
count is bumped, a hit is counted and the entry moves to the tail. -/
def lruGet (now : Nat) (key : String) (s : LRUState α) : Option α × LRUState α :=
  match dget key s.cache with
  | none => (none, { s with misses := s.misses + 1 })
  | some item =>
    if expiredCheck item.expireAt now then
      (none, { s with cache := drem key s.cache, misses := s.misses + 1 })
    else
      let item2 := { item with accessCount := item.accessCount + 1 }
      (some item.value,
       { s with
         cache := moveToEnd key (dset key item2 s.cache)
         hits := s.hits + 1 })

/-- While-loop of `LRUCache._cleanup`: `popitem(last=False)` until
`len(cache) ≤ capacity`. -/
def evictLRU (cap : Nat) : List β → List β
  | [] => []
  | x :: t => if (x :: t).length > cap then evictLRU cap t else x :: t

/-- Method `LRUCache._cleanup` at wall-clock `now`: drop the expired entries
(the list-comprehension-plus-pop pair, equivalent to a filter over the
pairwise-distinct keys), then evict from the least-recent end until the
count fits the capacity. -/
def lruCleanup (now : Nat) (s : LRUState α) : LRUState α :=
  { s with
    cache := evictLRU s.capacity
      (s.cache.filter fun p => ! expiredCheck p.2.expireAt now) }

/-- Method `LRUCache.set(key, value, expire)` at wall-clock `now`: computes
`expire_at = time.time() + (expire or self.ttl)` (so both `None` and `0`
fall back to the ttl), moves an existing key to the tail, assigns the fresh
item and runs `_cleanup`.  The memory-ceiling branch is skipped because
`max_memory` is `None` in the modelled configuration. -/
def lruSet (now : Nat) (key : String) (v : α) (expire : Option Nat)
    (s : LRUState α) : LRUState α :=
  let eff := match expire with
    | none => s.ttl
    | some e => if e = 0 then s.ttl else e
  let item : CacheItem α :=
    { value := v, expireAt := some (now + eff), accessCount := 0, createdAt := now }
  let c1 := if dmem key s.cache then moveToEnd key s.cache else s.cache
  lruCleanup now { s with cache := dset key item c1 }

/-- Attributes assigned by `LRUCache.__init__` (`src/cache/lru_cache.py`,
lines 25–40); `timestamps` is not among them. -/
def lruAttrNames : List String :=
  ["cache", "capacity", "max_memory", "_lock", "hits", "misses", "logger",
   "_cleanup_task", "cleanup_interval", "ttl", "_stats"]

/-- Method `LRUCache._cleanup_expired`: its first expression reads
`self.timestamps.items()`, and `timestamps` is never assigned on `LRUCache`,
so the attribute lookup raises `AttributeError` before anything is removed.
The `then` arm (attribute found) is unreachable and leaves the state
untouched; the real arm is the error. -/
def lruCleanupExpired (s : LRUState α) : Except String (LRUState α) :=
  if "timestamps" ∈ lruAttrNames then .ok s
  else .error "AttributeError: LRUCache object has no attribute timestamps"

/-- One iteration of `LRUCache._cleanup_loop` (the 60-second background
sweeper started by `LRUCache.start`): it calls `_cleanup_expired`; the
`AttributeError` escaping it leaves the cache exactly as it was (and kills
the sweeper task). -/
def sweeperTick (s : LRUState α) : LRUState α :=
  match lruCleanupExpired s with
  | .ok s2 => s2
  | .error _ => s

/-- Client-visible operations of the cache, each stamped with the wall-clock
time of the call. -/
inductive LRUOp (α : Type) where
  | get (now : Nat) (key : String)
  | set (now : Nat) (key : String) (v : α) (expire : Option Nat)

/-- Run of a sequence of `get`/`set` calls against a cache state. -/
def lruRun (s : LRUState α) : List (LRUOp α) → LRUState α
  | [] => s
  | .get now k :: rest => lruRun (lruGet now k s).2 rest
  | .set now k v e :: rest => lruRun (lruSet now k v e s) rest

/-- Number of `get` calls in a sequence of operations. -/
def countGets : List (LRUOp α) → Nat
  | [] => 0
  | .get _ _ :: rest => countGets rest + 1
  | .set _ _ _ _ :: rest => countGets rest

/-- Wall-clock positivity of the `set` calls in a trace (Python
`time.time()` is always positive). -/
def setTimesPos : List (LRUOp α) → Bool
  | [] => true
  | .get _ _ :: rest => setTimesPos rest
  | .set now _ _ _ :: rest => decide (1 ≤ now) && setTimesPos rest

/-! ### Route trie (`src/router/patterns.py`, `src/router/core.py`)

Handlers are identified by numeric ids.  `add_route` walks the pattern
segments: a `{name}` segment is stored under the child key `"*"` with
`param_name = name` and `is_wildcard = True`; every other segment —
including a literal `*` — is stored as a literal child with no parameter
name.  `find_route` prefers an exact child, falls back to the `"*"` child
(recording `params[param_name] = segment` only when `param_name` is set),
and keeps descending segment by segment. -/

/-- Node of the routing trie (`TrieNode.__init__`). -/
inductive Trie where
  | node (children : List (String × Trie)) (handler : Option Nat)
      (methods : List String) (isEndpoint : Bool)
      (paramName : Option String) (isWildcard : Bool)

/-- Children dictionary of a node. -/
def Trie.children : Trie → List (String × Trie)
  | .node c _ _ _ _ _ => c

/-- Captured-parameter name of a node. -/
def Trie.paramName : Trie → Option String
  | .node _ _ _ _ p _ => p

/-- Fresh node, `TrieNode()`. -/
def Trie.empty : Trie := .node [] none [] false none false

/-- Test `part.startswith('{') and part.endswith('}')` of `add_route`,
phrased over the character list (an opening brace first and a closing brace
last; a one-character brace string fails the second test). -/
def isParamSeg (s : String) : Bool :=
  match s.data with
  | [] => false
  | c :: rest =>
    decide (c = '\x7b') &&
      (match (c :: rest).getLast? with
       | some d => decide (d = '\x7d')
       | none => false)

/-- Slice `part[1:-1]` extracting the parameter name. -/
def paramNameOf (s : String) : String :=
  String.mk ((s.data.drop 1).dropLast)

/-- Loop of `add_route` (lines 364–383): walks/creates child nodes for each
segment, then marks the final node as an endpoint carrying the handler and
methods.  A `{name}` segment creates/reuses the `"*"` child and then
overwrites its `param_name`/`is_wildcard`; any other segment creates/reuses
a literal child. -/
def insertParts (parts : List String) (handler : Nat) (methods : List String) :
    Trie → Trie
  | .node ch h ms ep pn wc =>
    match parts with
    | [] => .node ch (some handler) methods true pn wc
    | part :: rest =>
      if isParamSeg part then
        let child := (dget "*" ch).getD Trie.empty
        let child :=
          match child with
          | .node cch cc cms cep _ _ => Trie.node cch cc cms cep (some (paramNameOf part)) true
        .node (dset "*" (insertParts rest handler methods child) ch) h ms ep pn wc
      else
        let child := (dget part ch).getD Trie.empty
        .node (dset part (insertParts rest handler methods child) ch) h ms ep pn wc

/-- Result triple of `find_route`: `(handler, methods, params)`. -/
abbrev RouteResult := Option Nat × List String × List (String × String)

/-- Walk of `find_route` (lines 611–636): empty segments are skipped, an
exact child is preferred, otherwise the `"*"` child is taken (recording the
segment under the child's `param_name` when one is set); a dead end or a
non-endpoint final node yields no route. -/
def findWalk (t : Trie) (parts : List String)
    (params : List (String × String)) : Option RouteResult :=
  match parts with
  | [] =>
    match t with
    | .node _ h ms ep _ _ => if ep then some (h, ms, params) else none
  | part :: rest =>
    if part = "" then findWalk t rest params
    else
      match dget part t.children with
      | some child => findWalk child rest params
      | none =>
        match dget "*" t.children with
        | some child =>
          let params2 :=
            match child.paramName with
            | some pn => dset pn part params
            | none => params
          findWalk child rest params2
        | none => none

/-- Python `path.lstrip('/')`: drop all leading slashes. -/
def lstripSlash (s : String) : String :=
  String.mk (s.data.dropWhile fun c => c = '/')

/-- Helper for `split('/')` over the character list. -/
def splitSlashAux : List Char → List Char → List String
  | [], acc => [String.mk acc.reverse]
  | c :: cs, acc =>
    if c = '/' then String.mk acc.reverse :: splitSlashAux cs []
    else splitSlashAux cs (c :: acc)

/-- Python `path.lstrip('/').split('/')` as used by both `add_route` and
`find_route`. -/
def splitPath (s : String) : List String :=
  splitSlashAux (lstripSlash s).data []

/-- Router-relevant state of a `FlawlessAPI` instance: the trie root and the
route cache (`RouteCache(2000)`, an `LRUCache` with capacity 2000 and the
default ttl 3600).  The `RouteCache` access-count / hot-route statistics do
not affect lookup results and are not modelled. -/
structure RouterState where
  root : Trie := Trie.empty
  routeCache : LRUState RouteResult := lruNew 2000 3600

/-- Method `add_route(path, handler, methods)` restricted to its effect on
the trie (document generation and `_routes` bookkeeping are orthogonal). -/
def addRoute (rs : RouterState) (path : String) (handler : Nat)
    (methods : List String) : RouterState :=
  { rs with root := insertParts (splitPath path) handler methods rs.root }

/-- Method `find_route(path)` at wall-clock `now`: consult the route cache
under key `"route:" + path` (any cached triple is truthy), otherwise walk
the trie; an endpoint result is cached with the default ttl. -/
def findRoute (now : Nat) (rs : RouterState) (path : String) :
    Option RouteResult × RouterState :=
  let cacheKey := "route:" ++ path
  match lruGet now cacheKey rs.routeCache with
  | (some r, c2) => (some r, { rs with routeCache := c2 })
  | (none, c2) =>
    match findWalk rs.root (splitPath path) [] with
    | some r => (some r, { rs with routeCache := lruSet now cacheKey r none c2 })
    | none => (none, { rs with routeCache := c2 })

/-! ### Response envelope and JSON emission (`src/response.py`)

Python values visible to the response path: JSON scalars, lists, string-keyed
dicts, plus `ApiResponse` instances (`vresp`) — the class backing
`success_response` / `error_response`.  `ApiResponse.timestamp` is
`time.time()`; it is modelled as a natural number of epoch seconds. -/

/-- Python value universe of the response path. -/
inductive PyVal where
  | vnone
  | vbool (b : Bool)
  | vint (n : Int)
  | vstr (s : String)
  | vlist (xs : List PyVal)
  | vdict (d : List (String × PyVal))
  | vresp (code : Int) (message : String) (data : PyVal) (timestamp : Nat)

/-- Function `success_response(data)`: `ApiResponse(code=200,
message="success", data=data)` stamped with the current time. -/
def successResponse (now : Nat) (data : PyVal) : PyVal :=
  .vresp 200 "success" data now

/-- Method `ApiResponse.dict()`: the envelope dictionary
`{code, message, data, timestamp}`. -/
def respDict (code : Int) (message : String) (data : PyVal) (ts : Nat) : PyVal :=
  .vdict [("code", .vint code), ("message", .vstr message),
          ("data", data), ("timestamp", .vint ts)]

/-- Conversion applied by `process_dict` to the items of list values:
`item.dict() if hasattr(item, 'dict') else item`. -/
def itemDict : PyVal → PyVal
  | .vresp c m d ts => respDict c m d ts
  | x => x

mutual

/-- Treatment of one dict value inside `process_dict` of
`send_json_response`: objects with a `dict` method (only `ApiResponse` here)
are converted, nested dicts are processed recursively, lists map `itemDict`
over their items, everything else passes through. -/
def processEntry : PyVal → PyVal
  | .vresp c m d ts => respDict c m d ts
  | .vdict d => .vdict (processPairs d)
  | .vlist xs => .vlist (xs.map itemDict)
  | x => x

/-- Helper `process_dict(d)` of `send_json_response`, over the pair list. -/
def processPairs : List (String × PyVal) → List (String × PyVal)
  | [] => []
  | (k, v) :: t => (k, processEntry v) :: processPairs t

end

/-- Escaping of `json.dumps` restricted to the characters our inputs use
(quote and backslash; no control characters occur in the modelled data). -/
def jsonEscape (s : String) : String :=
  String.mk (s.data.foldr
    (fun c acc =>
      if c = '"' then '\\' :: '"' :: acc
      else if c = '\\' then '\\' :: '\\' :: acc
      else c :: acc) [])

mutual

/-- Python `json.dumps` with its default separators (`", "` and `": "`):
keys keep insertion order; an `ApiResponse` instance is not JSON
serializable and raises `TypeError`. -/
def jsonDumps : PyVal → Except String String
  | .vnone => .ok "null"
  | .vbool true => .ok "true"
  | .vbool false => .ok "false"
  | .vint n => .ok (toString n)
  | .vstr s => .ok ("\"" ++ jsonEscape s ++ "\"")
  | .vlist xs => do
    let parts ← jsonDumpsList xs
    .ok ("[" ++ String.intercalate ", " parts ++ "]")
  | .vdict d => do
    let parts ← jsonDumpsPairs d
    .ok ("\x7b" ++ String.intercalate ", " parts ++ "\x7d")
  | .vresp _ _ _ _ => .error "TypeError: Object of type ApiResponse is not JSON serializable"

/-- Serialization of the items of a JSON array. -/
def jsonDumpsList : List PyVal → Except String (List String)
  | [] => .ok []
  | x :: t => do
    let s ← jsonDumps x
    let rest ← jsonDumpsList t
    .ok (s :: rest)

/-- Serialization of the members of a JSON object. -/
def jsonDumpsPairs : List (String × PyVal) → Except String (List String)
  | [] => .ok []
  | (k, v) :: t => do
    let s ← jsonDumps v
    let rest ← jsonDumpsPairs t
    .ok (("\"" ++ jsonEscape k ++ "\": " ++ s) :: rest)

end

/-- HTTP response as emitted by `AsyncResponse._send_response`: the status
value handed to `send`, the header list, and the body bytes (as a string). -/
structure Emitted where
  status : PyVal
  headers : List (String × String)
  body : String

/-- Method `AsyncResponse.send_json_response(send, status_code, body_dict)`
on a fresh `AsyncResponse` (its serialization cache is empty, so the miss
path is taken for every key; the cache writes do not affect the emitted
response).  `reprOf` is Python `str()` on the non-dict objects that reach
the fallback branch (for an `ApiResponse` instance: the default
address-bearing object repr); `gz` is `gzip.compress` at the tier-selected
level.  A dict is serialized through `process_dict`; any other value — no
modelled value has Pydantic dump methods — is serialized as
`json.dumps(str(value))`.  Bodies over 2048 bytes whose compression saves at
least 10 % are gzipped. -/
def sendJsonResponse (reprOf : PyVal → String) (gz : String → String)
    (statusCode : PyVal) (bodyVal : PyVal) : Emitted :=
  let ser : Except String String :=
    match bodyVal with
    | .vdict d => jsonDumps (.vdict (processPairs d))
    | v => jsonDumps (.vstr (reprOf v))
  match ser with
  | .error e =>
    { status := .vint 500
      headers := [("content-type", "application/json; charset=utf-8")]
      body := "\x7b\"error\": \"Serialization failed\", \"message\": \"" ++ jsonEscape e ++ "\"\x7d" }
  | .ok bytesData =>
    let headers0 := [("content-type", "application/json; charset=utf-8")]
    if bytesData.length > 2048 then
      let comp := gz bytesData
      if 10 * comp.length < 9 * bytesData.length then
        { status := statusCode
          headers := headers0 ++ [("content-encoding", "gzip")]
          body := comp }
      else
        { status := statusCode, headers := headers0, body := bytesData }
    else
      { status := statusCode, headers := headers0, body := bytesData }

/-- Observable result of `FlawlessAPI._send_response`: either the raw
headers/body passthrough or a JSON emission. -/
inductive Sent where
  | raw (headersVal : PyVal) (bodyStr : String)
  | jsonResp (e : Emitted)

/-- Method `FlawlessAPI._send_response(response, send)` (lines 757–781): a
dict carrying both `headers` and `body` keys is sent raw with status 200;
any other dict is sent as-is via `send_json_response` with status
`response.get('code', 200)`; every non-dict value is wrapped as
`success_response(data=response)` and sent with status 200. -/
def sendResponseDispatch (reprOf : PyVal → String) (gz : String → String)
    (now : Nat) (response : PyVal) : Sent :=
  match response with
  | .vdict d =>
    if dmem "headers" d && dmem "body" d then
      .raw ((dget "headers" d).getD .vnone)
        (match dget "body" d with | some (.vstr s) => s | _ => "")
    else
      .jsonResp (sendJsonResponse reprOf gz ((dget "code" d).getD (.vint 200)) (.vdict d))
  | v => .jsonResp (sendJsonResponse reprOf gz (.vint 200) (successResponse now v))

/-! ### Rate limiter and the middleware error path
(`src/middleware/rate_limit.py`, `src/router/core.py`) -/

/-- Token bucket of `TokenBucket.__init__`; tokens and times are rationals
(Python floats). -/
structure TokenBucket where
  capacity : ℚ
  fillRate : ℚ
  tokens : ℚ
  lastUpdate : ℚ

/-- Method `TokenBucket.acquire(tokens)` at wall-clock `now`: refill by
elapsed time times fill rate, clamp at capacity, then consume when enough
tokens are available. -/
def tbAcquire (now : ℚ) (n : ℚ) (tb : TokenBucket) : Bool × TokenBucket :=
  let refilled := min tb.capacity (tb.tokens + (now - tb.lastUpdate) * tb.fillRate)
  if n ≤ refilled then
    (true, { tb with tokens := refilled - n, lastUpdate := now })
  else
    (false, { tb with tokens := refilled, lastUpdate := now })

/-- Exception object as observed by `_handle_middleware_error` through
`getattr(error, 'status_code', 500)` and `getattr(error, 'detail', None)`. -/
structure PyExc where
  statusCode : Option Int := none
  message : String
  detail : Option String := none
deriving DecidableEq, Repr

/-- Branch `timing == 'before'` of `RateLimiter.__call__`: a failed
`acquire` raises the bare `Exception("Rate limit exceeded")` (which carries
neither `status_code` nor `detail`). -/
def rateLimiterBefore (acquired : Bool) : Except PyExc Unit :=
  if acquired then .ok ()
  else .error { message := "Rate limit exceeded" }

/-- Parameter names of `error_response(code, message, data)` in
`src/response.py`. -/
def errorResponseParams : List String := ["code", "message", "data"]

/-- Call of `error_response` with an explicit keyword list: Python rejects
any keyword outside the declared parameters with `TypeError` before the body
runs; with accepted keywords the call builds
`ApiResponse(code, message, data=None)`. -/
def errorResponseKw (now : Nat) (code : Int) (message : String)
    (kwargs : List String) : Except String PyVal :=
  if kwargs.all (fun k => decide (k ∈ errorResponseParams)) then
    .ok (.vresp code message .vnone now)
  else
    .error "TypeError: error_response got an unexpected keyword argument detail"

/-- Method `FlawlessAPI._handle_middleware_error(error, send)` (lines
958–968): derives `code = getattr(error, 'status_code', 500)` and calls
`error_response(code=code, message=message, detail=detail)` — a call whose
`detail` keyword the target signature does not accept. -/
def handleMiddlewareError (reprOf : PyVal → String) (gz : String → String)
    (now : Nat) (e : PyExc) : Except String Sent := do
  let code := e.statusCode.getD 500
  let resp ← errorResponseKw now code e.message ["code", "message", "detail"]
  .ok (.jsonResp (sendJsonResponse reprOf gz (.vint code) resp))

/-- Observable fate of one HTTP request. -/
inductive RequestOutcome where
  | sent (s : Sent)
  | crashed (excMessage : String)

/-- Path of a request through the rate-limiter middleware, given the result
of `bucket.acquire()` and the outcome `onAdmit` of the rest of the chain: an
admitted request continues; a denied one raises, the wrapper calls
`_handle_middleware_error`, whose own `TypeError` escapes into
`process_middlewares`, whose `except` clause calls the undefined
`self._handle_system_error` — an `AttributeError` that leaves the framework
without any response having been sent. -/
def rateLimitedOutcome (reprOf : PyVal → String) (gz : String → String)
    (now : Nat) (acquired : Bool) (onAdmit : RequestOutcome) : RequestOutcome :=
  match rateLimiterBefore acquired with
  | .ok _ => onAdmit
  | .error e =>
    match handleMiddlewareError reprOf gz now e with
    | .ok s => .sent s
    | .error _ =>
      .crashed "AttributeError: FlawlessAPI object has no attribute _handle_system_error"

/-! ### Middleware chain compilation (`src/router/core.py`) -/

/-- Middleware-chain bookkeeping of a `FlawlessAPI` instance: the stack, the
`_compiled_chain` attribute (absent until first compilation; the compiled
callable is represented by the list of middlewares it wraps, outermost
first), and whether `add_middleware` has assigned its
`_compiled_middleware = None`. -/
structure MWState where
  middlewareStack : List Nat := []
  compiledChain : Option (List Nat) := none
  compiledMiddlewareCleared : Bool := false
deriving DecidableEq, Repr

/-- Method `add_middleware(middleware)` (lines 661–667): appends to the
stack and assigns `self._compiled_middleware = None` — an attribute that
`_compile_middleware_chain` never reads. -/
def addMiddleware (m : Nat) (s : MWState) : MWState :=
  { s with
    middlewareStack := s.middlewareStack ++ [m]
    compiledMiddlewareCleared := true }

/-- Method `_compile_middleware_chain` (lines 987–1006): returns the cached
`_compiled_chain` when the attribute exists; otherwise folds the wrapper
over the reversed stack (producing a chain that runs the stack outermost
first) and caches it in `_compiled_chain`. -/
def compileMiddlewareChain (s : MWState) : List Nat × MWState :=
  match s.compiledChain with
  | some c => (c, s)
  | none => (s.middlewareStack, { s with compiledChain := some s.middlewareStack })

/-! ## Theorems -/

/-- C1: the spec claims the queue yields the highest `priority.value` first
(FIFO among equals).  The code pushes `(priority.value, task_type, task)`
into a min-heap, so the LOWEST value is served first: after enqueuing a
LOW-priority task (value 0) and then a HIGH-priority task (value 2), the
first dequeue hands out the LOW task, not the HIGH one. -/
theorem taskQueue_serves_lowest_priority_value_first :
    let st1 : TQState := (addTask {} 0 "default").2
    let st2 := (addTask st1 2 "default").2
    (getTask st2 ["default"]).1 = some ⟨0, 0⟩
    ∧ (getTask st2 ["default"]).1 ≠ some ⟨1, 2⟩
    ∧ dget 0 st2.tasks = some { pval := 0, status := .pending }
    ∧ dget 1 st2.tasks = some { pval := 2, status := .pending } := by
  simp [addTask, getTask, heappush, heappop, siftup, siftupLoop, siftdownLoop,
    entryLt, dset, dget, TQState.heap]

/-- C2: the spec claims that while a HALF-OPEN probe is pending every further
request is rejected with CIRCUIT_OPEN.  The HALF-OPEN arm of
`CircuitBreaker.__call__` is `pass`: after the breaker trips (threshold 1,
failure at time 10) and the reset timeout elapses, a first `before` call at
time 12 flips it to HALF-OPEN and admits, and a second `before` call with
the probe still unresolved is admitted as well instead of being rejected. -/
theorem circuitBreaker_half_open_admits_every_request :
    let cb0 : CircuitBreaker := { failureThreshold := 1, resetTimeout := 1 }
    let cbH : CircuitBreaker :=
      { failureThreshold := 1, resetTimeout := 1, failures := 1,
        lastFailureTime := 10, state := .halfOpenS }
    cbAfter 10 500 cb0 =
      { failureThreshold := 1, resetTimeout := 1, failures := 1,
        lastFailureTime := 10, state := .openS }
    ∧ cbBefore 12 (cbAfter 10 500 cb0) = .ok cbH
    ∧ cbBefore 12 cbH = .ok cbH := by
  decide

/-- C4: the spec claims each sweeper run removes every entry with
`expire_at < now`.  `LRUCache._cleanup_expired` reads `self.timestamps`, an
attribute `LRUCache.__init__` never assigns, so the run raises
`AttributeError` and removes nothing: a cache holding an entry expired at
time 5 still holds it, unchanged, after a sweeper tick at time 100. -/
theorem sweeper_removes_nothing :
    let item : CacheItem Nat :=
      { value := 0, expireAt := some 5, accessCount := 0, createdAt := 1 }
    let s : LRUState Nat := { cache := [("k", item)], capacity := 10, ttl := 3600 }
    expiredCheck item.expireAt 100 = true
    ∧ lruCleanupExpired s =
        .error "AttributeError: LRUCache object has no attribute timestamps"
    ∧ sweeperTick s = s
    ∧ dget "k" (sweeperTick s).cache = some item := by
  decide

/-- C9: the spec claims `add_middleware` invalidates the compiled-chain
cache.  The cache lives in `_compiled_chain`, while `add_middleware` assigns
`_compiled_middleware = None`: once a first request has compiled the chain
`[1, 2]`, registering middleware `3` leaves the cached chain in place, and
the next request runs `[1, 2]` — without the newly registered middleware,
although it is on the stack. -/
theorem compiled_chain_not_invalidated_by_add_middleware :
    let s0 : MWState := { middlewareStack := [1, 2] }
    let r1 := compileMiddlewareChain s0
    let s2 := addMiddleware 3 r1.2
    let r2 := compileMiddlewareChain s2
    r1.1 = [1, 2]
    ∧ s2.middlewareStack = [1, 2, 3]
    ∧ s2.compiledMiddlewareCleared = true
    ∧ r2.1 = [1, 2]
    ∧ 3 ∉ r2.1 := by
  decide

/-- Router with `GET /users/{id}` (handler 1) registered before
`GET /users/me` (handler 2). -/
def usersRouterA : RouterState :=
  addRoute (addRoute {} "/users/\x7bid\x7d" 1 ["GET"]) "/users/me" 2 ["GET"]

/-- Router with the same two routes registered in the opposite order. -/
def usersRouterB : RouterState :=
  addRoute (addRoute {} "/users/me" 2 ["GET"]) "/users/\x7bid\x7d" 1 ["GET"]

/-- C6: with `GET /users/{id}` (handler 1) and `GET /users/me` (handler 2)
registered in either order, looking up `/users/me` selects the literal
route and looking up `/users/7` selects the parameterized route with
`id = "7"` — the exact-child check of `find_route` runs before the `"*"`
fallback. -/
theorem route_literal_beats_param :
    (findRoute 5 usersRouterA "/users/me").1 = some (some 2, ["GET"], [])
    ∧ (findRoute 5 usersRouterA "/users/7").1 = some (some 1, ["GET"], [("id", "7")])
    ∧ (findRoute 5 usersRouterB "/users/me").1 = some (some 2, ["GET"], [])
    ∧ (findRoute 5 usersRouterB "/users/7").1 = some (some 1, ["GET"], [("id", "7")]) :=
  ⟨by decide, by decide, by decide, by decide⟩

/-- C5: the spec claims a trailing wildcard captures the joined remainder
and stops descent.  With `/files/*` registered, a lookup of `/files/a/b`
— whose segment `a` reaches the `"*"` child — finds no route at all
(the walk keeps descending and dead-ends), instead of returning the handler
with the remainder `"a/b"` recorded. -/
theorem wildcard_remainder_not_captured :
    (findRoute 5 (addRoute {} "/files/*" 7 ["GET"]) "/files/a/b").1 = none := by
  decide

/-- Lookup after in-place assignment finds the assigned value. -/
theorem dget_dset_self {β : Type} {κ : Type} [DecidableEq κ] (k : κ) (v : β) :
    ∀ l : List (κ × β), dget k (dset k v l) = some v := by
  intro l
  induction l with
  | nil => simp [dget, dset]
  | cons a t ih =>
    by_cases h : a.1 = k
    · simp [dget, dset, h]
    · simpa [dget, dset, h] using ih

/-- Queue state holding one PENDING task of priority 1 with id 0 (as after
one `add_task` call). -/
def taskQueueFixture : TQState :=
  { heap := [(1, "default", ⟨0, 1⟩)]
    tasks := [(0, { pval := 1, status := .pending })]
    nextId := 1 }

/-- C10: `cancel_task` on a PENDING task reports success and flips the status
to CANCELLED but leaves the priority queue untouched; `get_task` hands out
whatever entry the heap yields, with no status check; and
`Consumer._process_task` unconditionally sets RUNNING and invokes the task
function — so a task cancelled while PENDING is still executed when a
consumer later dequeues it. -/
theorem cancelled_task_still_runs :
    (∀ (st : TQState) (tid : Nat) (r : TaskRec),
      dget tid st.tasks = some r → r.status = .pending →
      (cancelTask st tid).1 = true
      ∧ dget tid (cancelTask st tid).2.tasks = some { r with status := .cancelled }
      ∧ (cancelTask st tid).2.heap = st.heap)
    ∧ (∀ (st : TQState) (taskTypes : List String) (p : Nat) (ty : String) (task : TaskRef),
      (heappop entryLt st.heap).1 = some (p, ty, task) → ty ∈ taskTypes →
      (getTask st taskTypes).1 = some task)
    ∧ (∀ (st : TQState) (task : TaskRef) (r : TaskRec),
      dget task.tid st.tasks = some r →
      dget task.tid (processTaskStart st task).tasks = some { r with status := .running }
      ∧ task.tid ∈ (processTaskStart st task).invoked) := by
  refine ⟨?_, ?_, ?_⟩
  · intro st tid r hget hstatus
    simp [cancelTask, hget, hstatus, dget_dset_self]
  · intro st taskTypes p ty task hpop hty
    rcases hh : heappop entryLt st.heap with ⟨fst, snd⟩
    rw [hh] at hpop
    simp at hpop
    subst hpop
    simp [getTask, hh, hty]
  · intro st task r hget
    simp [processTaskStart, hget, dget_dset_self]

/-- Concrete run of C10: one PENDING task (id 0, priority 1) is cancelled
(success, status CANCELLED, heap untouched), then dequeued by a consumer and
started anyway: status becomes RUNNING and its function is invoked. -/
theorem cancelled_task_still_runs_witness :
    (cancelTask taskQueueFixture 0).1 = true
    ∧ dget 0 (cancelTask taskQueueFixture 0).2.tasks
        = some { pval := 1, status := .cancelled }
    ∧ (cancelTask taskQueueFixture 0).2.heap = taskQueueFixture.heap
    ∧ (getTask (cancelTask taskQueueFixture 0).2 ["default"]).1 = some ⟨0, 1⟩
    ∧ dget 0 (processTaskStart (getTask (cancelTask taskQueueFixture 0).2 ["default"]).2 ⟨0, 1⟩).tasks
        = some { pval := 1, status := .running }
    ∧ (0 : Nat) ∈ (processTaskStart (getTask (cancelTask taskQueueFixture 0).2 ["default"]).2 ⟨0, 1⟩).invoked := by
  obtain ⟨h1, h2, h3⟩ := cancelled_task_still_runs
  obtain ⟨ha, hb, hc⟩ := h1 taskQueueFixture 0 { pval := 1, status := .pending } (by decide) rfl
  refine ⟨ha, hb, hc, ?_, ?_⟩
  · exact h2 (cancelTask taskQueueFixture 0).2 ["default"] 1 "default" ⟨0, 1⟩ (by decide) (by decide)
  · exact h3 (getTask (cancelTask taskQueueFixture 0).2 ["default"]).2 ⟨0, 1⟩
      { pval := 1, status := .cancelled } (by decide)

/-- C7 (amended behaviour): a denied `acquire` raises the bare
`Exception("Rate limit exceeded")`; `_handle_middleware_error` derives code
500 from the absent `status_code`, but its `error_response(detail=…)` call
raises `TypeError`, which escapes into `process_middlewares`, whose handler
calls the undefined `_handle_system_error` — so the framework emits no
response at all for the rate-limited request, in particular no 429. -/
theorem rate_limited_request_amended :
    ∀ (reprOf : PyVal → String) (gz : String → String) (now : Nat)
      (onAdmit : RequestOutcome),
    rateLimiterBefore false =
      .error { statusCode := none, message := "Rate limit exceeded", detail := none }
    ∧ handleMiddlewareError reprOf gz now { message := "Rate limit exceeded" }
        = .error "TypeError: error_response got an unexpected keyword argument detail"
    ∧ rateLimitedOutcome reprOf gz now false onAdmit
        = .crashed "AttributeError: FlawlessAPI object has no attribute _handle_system_error" := by
  intro reprOf gz now onAdmit
  exact ⟨rfl, rfl, rfl⟩

/-- C7 counterexample: a request denied by the token bucket ends in a crash
of the error path with no bytes sent — not in a 429 `RATE_LIMITED`
envelope. -/
theorem rate_limited_request_no_429 :
    rateLimitedOutcome (fun _ => "") (fun s => s) 3 false (.sent (.raw .vnone ""))
      = .crashed "AttributeError: FlawlessAPI object has no attribute _handle_system_error" := by
  rfl

/-- Test `isinstance(response, dict)`. -/
def isDictVal : PyVal → Bool
  | .vdict _ => true
  | _ => false

/-- Escaping at most doubles the length of a string. -/
theorem jsonEscape_length_le (s : String) : (jsonEscape s).length ≤ 2 * s.length := by
  have key : ∀ l : List Char,
      (l.foldr (fun c acc =>
        if c = '"' then '\\' :: '"' :: acc
        else if c = '\\' then '\\' :: '\\' :: acc
        else c :: acc) []).length ≤ 2 * l.length := by
    intro l
    induction l with
    | nil => simp
    | cons c t ih =>
      simp only [List.foldr, List.length_cons]
      split_ifs <;> simp only [List.length_cons] <;> omega
  exact key s.data

/-- Emission of an `ApiResponse` object through `send_json_response`: it hits
the `json.dumps(str(…))` fallback, and a short enough repr skips the
compression branch. -/
theorem sendJsonResponse_vresp (reprOf : PyVal → String) (gz : String → String)
    (st : PyVal) (c : Int) (m : String) (d : PyVal) (ts : Nat)
    (hshort : ¬ ("\"" ++ jsonEscape (reprOf (PyVal.vresp c m d ts)) ++ "\"").length > 2048) :
    sendJsonResponse reprOf gz st (.vresp c m d ts)
      = { status := st,
          headers := [("content-type", "application/json; charset=utf-8")],
          body := "\"" ++ jsonEscape (reprOf (.vresp c m d ts)) ++ "\"" } := by
  simp only [sendJsonResponse, jsonDumps]
  rw [if_neg hshort]

/-- C8 counterexample: the handler return `{"foo": 1}` — neither shaped nor
a raw headers/body response — is emitted as-is by `_send_response` (body
`{"foo": 1}`), whereas the claim requires the JSON of the envelope
`success_response(data={"foo": 1})`, which at emission time 0 serializes to
a different string. -/
theorem dict_response_not_wrapped :
    sendResponseDispatch (fun _ => "") (fun s => s) 0 (.vdict [("foo", .vint 1)])
      = .jsonResp { status := .vint 200,
                    headers := [("content-type", "application/json; charset=utf-8")],
                    body := "\x7b\"foo\": 1\x7d" }
    ∧ jsonDumps (respDict 200 "success" (.vdict [("foo", .vint 1)]) 0)
      = .ok "\x7b\"code\": 200, \"message\": \"success\", \"data\": \x7b\"foo\": 1\x7d, \"timestamp\": 0\x7d"
    ∧ "\x7b\"foo\": 1\x7d"
      ≠ "\x7b\"code\": 200, \"message\": \"success\", \"data\": \x7b\"foo\": 1\x7d, \"timestamp\": 0\x7d" := by
  refine ⟨rfl, by decide, by decide⟩

/-- C8 (amended behaviour): a dict without both `headers` and `body` keys is
emitted as-is through `send_json_response` with status `response.get('code',
200)` — no wrapping, shaped or not; a non-dict value is wrapped as
`success_response(data=value)`, but the resulting `ApiResponse` object falls
into the `json.dumps(str(…))` branch, so the body is the JSON quotation of
the object repr rather than the envelope JSON (the Content-Type header is
still `application/json; charset=utf-8`).  The repr-length bound keeps the
body under the compression threshold, as any CPython object repr is. -/
theorem response_serialization_amended :
    ∀ (reprOf : PyVal → String) (gz : String → String) (now : Nat),
    (∀ d : List (String × PyVal), (dmem "headers" d && dmem "body" d) = false →
      sendResponseDispatch reprOf gz now (.vdict d)
        = .jsonResp (sendJsonResponse reprOf gz ((dget "code" d).getD (.vint 200)) (.vdict d)))
    ∧ (∀ v : PyVal, isDictVal v = false →
      (reprOf (successResponse now v)).length ≤ 1000 →
      sendResponseDispatch reprOf gz now v
        = .jsonResp { status := .vint 200,
                      headers := [("content-type", "application/json; charset=utf-8")],
                      body := "\"" ++ jsonEscape (reprOf (successResponse now v)) ++ "\"" }) := by
  intro reprOf gz now
  constructor
  · intro d hcond
    simp [sendResponseDispatch, hcond]
  · intro v hv hlen
    have hq : ("\"" : String).length = 1 := rfl
    have hesc := jsonEscape_length_le (reprOf (successResponse now v))
    have hshort : ¬ ("\"" ++ jsonEscape (reprOf (successResponse now v)) ++ "\"").length > 2048 := by
      rw [String.length_append, String.length_append, hq]
      omega
    cases v with
    | vdict d => simp [isDictVal] at hv
    | vnone =>
      simp only [sendResponseDispatch, successResponse]
      rw [sendJsonResponse_vresp _ _ _ _ _ _ _ hshort]
    | vbool b =>
      simp only [sendResponseDispatch, successResponse]
      rw [sendJsonResponse_vresp _ _ _ _ _ _ _ hshort]
    | vint n =>
      simp only [sendResponseDispatch, successResponse]
      rw [sendJsonResponse_vresp _ _ _ _ _ _ _ hshort]
    | vstr s =>
      simp only [sendResponseDispatch, successResponse]
      rw [sendJsonResponse_vresp _ _ _ _ _ _ _ hshort]
    | vlist xs =>
      simp only [sendResponseDispatch, successResponse]
      rw [sendJsonResponse_vresp _ _ _ _ _ _ _ hshort]
    | vresp c m dta ts =>
      simp only [sendResponseDispatch, successResponse]
      rw [sendJsonResponse_vresp _ _ _ _ _ _ _ hshort]

/-- Concrete instantiation of the amended C8: the unshaped dict `{"x": 2}`
passes through unwrapped, and the non-dict value `7` is wrapped but emitted
as the JSON string of the object repr (`"OBJ"` standing for the repr). -/
theorem response_serialization_amended_witness :
    sendResponseDispatch (fun _ => "OBJ") (fun s => s) 0 (.vdict [("x", .vint 2)])
      = .jsonResp (sendJsonResponse (fun _ => "OBJ") (fun s => s) (.vint 200) (.vdict [("x", .vint 2)]))
    ∧ sendResponseDispatch (fun _ => "OBJ") (fun s => s) 0 (.vint 7)
      = .jsonResp { status := .vint 200,
                    headers := [("content-type", "application/json; charset=utf-8")],
                    body := "\"OBJ\"" } := by
  obtain ⟨h1, h2⟩ := response_serialization_amended (fun _ => "OBJ") (fun s => s) 0
  refine ⟨h1 [("x", .vint 2)] (by decide), ?_⟩
  have := h2 (.vint 7) (by decide) (by decide)
  simpa [jsonEscape] using this

/-! ### Lemmas about the dict primitives and the LRU invariants -/

/-- Successful lookup exhibits a member of the dict. -/
theorem dget_mem {κ β : Type} [DecidableEq κ] {k : κ} {v : β} :
    ∀ {l : List (κ × β)}, dget k l = some v → (k, v) ∈ l := by
  intro l
  induction l with
  | nil => intro h; simp [dget] at h
  | cons a t ih =>
    intro h
    by_cases ha : a.1 = k
    · rw [show a = (a.1, a.2) from rfl, dget, if_pos ha] at h
      injection h with h
      simp [← ha, ← h]
    · rw [show a = (a.1, a.2) from rfl, dget, if_neg ha] at h
      exact List.mem_cons_of_mem _ (ih h)

/-- Members after assignment were members before, or are the new binding. -/
theorem mem_dset {κ β : Type} [DecidableEq κ] {p : κ × β} {k : κ} {v : β} :
    ∀ {l : List (κ × β)}, p ∈ dset k v l → p ∈ l ∨ p = (k, v) := by
  intro l
  induction l with
  | nil => intro h; simp [dset] at h; simp [h]
  | cons a t ih =>
    intro h
    rw [show a = (a.1, a.2) from rfl, dset] at h
    by_cases ha : a.1 = k
    · rw [if_pos ha] at h
      rcases List.mem_cons.1 h with h | h
      · right; rw [h, ha]
      · left; exact List.mem_cons_of_mem _ h
    · rw [if_neg ha] at h
      rcases List.mem_cons.1 h with h | h
      · left; simp [h]
      · rcases ih h with h | h
        · left; exact List.mem_cons_of_mem _ h
        · right; exact h

/-- Members after deletion were members before. -/
theorem mem_drem {κ β : Type} [DecidableEq κ] {p : κ × β} {k : κ} :
    ∀ {l : List (κ × β)}, p ∈ drem k l → p ∈ l := by
  intro l
  induction l with
  | nil => intro h; simp [drem] at h
  | cons a t ih =>
    intro h
    rw [show a = (a.1, a.2) from rfl, drem] at h
    by_cases ha : a.1 = k
    · rw [if_pos ha] at h; exact List.mem_cons_of_mem _ h
    · rw [if_neg ha] at h
      rcases List.mem_cons.1 h with h | h
      · simp [h]
      · exact List.mem_cons_of_mem _ (ih h)

/-- Members after `move_to_end` were members before. -/
theorem mem_moveToEnd {κ β : Type} [DecidableEq κ] {p : κ × β} {k : κ}
    {l : List (κ × β)} (h : p ∈ moveToEnd k l) : p ∈ l := by
  unfold moveToEnd at h
  cases hg : dget k l with
  | none => rw [hg] at h; exact h
  | some v =>
    rw [hg] at h
    rcases List.mem_append.1 h with h | h
    · exact mem_drem h
    · rw [List.mem_singleton.1 h]
      exact dget_mem hg

/-- Deletion never lengthens a dict. -/
theorem length_drem_le {κ β : Type} [DecidableEq κ] (k : κ) :
    ∀ l : List (κ × β), (drem k l).length ≤ l.length := by
  intro l
  induction l with
  | nil => simp [drem]
  | cons a t ih =>
    rw [show a = (a.1, a.2) from rfl, drem]
    by_cases ha : a.1 = k
    · rw [if_pos ha]; simp
    · rw [if_neg ha]; simpa using ih

/-- Deletion of a present key shortens the dict by exactly one. -/
theorem length_drem_of_get {κ β : Type} [DecidableEq κ] {k : κ} {v : β} :
    ∀ {l : List (κ × β)}, dget k l = some v → (drem k l).length + 1 = l.length := by
  intro l
  induction l with
  | nil => intro h; simp [dget] at h
  | cons a t ih =>
    intro h
    rw [show a = (a.1, a.2) from rfl, dget] at h
    rw [show a = (a.1, a.2) from rfl, drem]
    by_cases ha : a.1 = k
    · rw [if_pos ha]; simp
    · rw [if_neg ha] at h
      rw [if_neg ha]
      simpa using ih h

/-- Assignment over a present key keeps the length. -/
theorem length_dset_of_get {κ β : Type} [DecidableEq κ] {k : κ} {v v' : β} :
    ∀ {l : List (κ × β)}, dget k l = some v → (dset k v' l).length = l.length := by
  intro l
  induction l with
  | nil => intro h; simp [dget] at h
  | cons a t ih =>
    intro h
    rw [show a = (a.1, a.2) from rfl, dget] at h
    rw [show a = (a.1, a.2) from rfl, dset]
    by_cases ha : a.1 = k
    · rw [if_pos ha]; simp
    · rw [if_neg ha] at h
      rw [if_neg ha]
      simpa using ih h

/-- `move_to_end` keeps the length. -/
theorem length_moveToEnd {κ β : Type} [DecidableEq κ] (k : κ) (l : List (κ × β)) :
    (moveToEnd k l).length = l.length := by
  unfold moveToEnd
  cases hg : dget k l with
  | none => rfl
  | some v =>
    have := length_drem_of_get hg
    simp [List.length_append]
    omega

/-- The eviction loop leaves at most `cap` entries. -/
theorem evictLRU_length_le {β : Type} (cap : Nat) :
    ∀ l : List β, (evictLRU cap l).length ≤ cap := by
  intro l
  induction l with
  | nil => simp [evictLRU]
  | cons x t ih =>
    rw [evictLRU]
    by_cases h : (x :: t).length > cap
    · rw [if_pos h]; exact ih
    · rw [if_neg h]; omega

/-- The eviction loop only drops entries. -/
theorem evictLRU_subset {β : Type} {cap : Nat} {p : β} :
    ∀ {l : List β}, p ∈ evictLRU cap l → p ∈ l := by
  intro l
  induction l with
  | nil => intro h; simp [evictLRU] at h
  | cons x t ih =>
    intro h
    rw [evictLRU] at h
    by_cases hc : (x :: t).length > cap
    · rw [if_pos hc] at h; exact List.mem_cons_of_mem _ (ih h)
    · rw [if_neg hc] at h; exact h

/-- Invariant of reachable caches: every stored entry has a positive numeric
`expire_at` (which `set` guarantees whenever wall-clock times are
positive). -/
def LiveEntries (s : LRUState α) : Prop :=
  ∀ p ∈ s.cache, ∃ e, p.2.expireAt = some e ∧ 1 ≤ e

/-- Behaviour of `get` on the bookkeeping fields: configuration unchanged,
exactly one hit or miss recorded, cache never grows, live entries stay
live. -/
theorem lruGet_props (now : Nat) (key : String) (s : LRUState α) :
    (lruGet now key s).2.capacity = s.capacity
    ∧ (lruGet now key s).2.hits + (lruGet now key s).2.misses
        = s.hits + s.misses + 1
    ∧ (lruGet now key s).2.cache.length ≤ s.cache.length
    ∧ (LiveEntries s → LiveEntries (lruGet now key s).2) := by
  cases hg : dget key s.cache with
  | none =>
    refine ⟨by simp [lruGet, hg], by simp [lruGet, hg]; omega, by simp [lruGet, hg], ?_⟩
    intro hl
    simpa [lruGet, hg, LiveEntries] using hl
  | some item =>
    by_cases he : expiredCheck item.expireAt now
    · refine ⟨by simp [lruGet, hg, he], by simp [lruGet, hg, he]; omega,
        by simpa [lruGet, hg, he] using length_drem_le key s.cache, ?_⟩
      intro hl p hp
      simp only [lruGet, hg, he, if_pos] at hp
      exact hl p (mem_drem hp)
    · refine ⟨by simp [lruGet, hg, he], by simp [lruGet, hg, he]; omega, ?_, ?_⟩
      · simp only [lruGet, hg, he]
        rw [if_neg (by simp [he])]
        simp only
        rw [length_moveToEnd, length_dset_of_get hg]
      · intro hl p hp
        simp only [lruGet, hg, he, if_neg, Bool.false_eq_true, not_false_iff] at hp
        rcases mem_dset (mem_moveToEnd hp) with hp2 | hp2
        · exact hl p hp2
        · obtain ⟨e, he1, he2⟩ := hl (key, item) (dget_mem hg)
          exact ⟨e, by rw [hp2]; exact he1, he2⟩

/-- Behaviour of `set`: configuration and counters unchanged, the cache ends
within capacity, and with a positive wall clock all entries stay live. -/
theorem lruSet_props (now : Nat) (key : String) (v : α) (ex : Option Nat)
    (s : LRUState α) :
    (lruSet now key v ex s).capacity = s.capacity
    ∧ (lruSet now key v ex s).hits = s.hits
    ∧ (lruSet now key v ex s).misses = s.misses
    ∧ (lruSet now key v ex s).cache.length ≤ s.capacity
    ∧ (1 ≤ now → LiveEntries s → LiveEntries (lruSet now key v ex s)) := by
  refine ⟨rfl, rfl, rfl, ?_, ?_⟩
  · simpa [lruSet, lruCleanup] using
      evictLRU_length_le s.capacity _
  · intro hnow hl p hp
    simp only [lruSet, lruCleanup] at hp
    have hp2 := List.mem_filter.1 (evictLRU_subset hp) |>.1
    rcases mem_dset hp2 with hp3 | hp3
    · by_cases hm : dmem key s.cache
      · rw [if_pos hm] at hp3
        exact hl p (mem_moveToEnd hp3)
      · rw [if_neg hm] at hp3
        exact hl p hp3
    · rw [hp3]
      exact ⟨_, rfl, Nat.le_trans hnow (Nat.le_add_right _ _)⟩

/-- Number of `get` operations, counted over a run from any start state:
invariants of `lruRun`. -/
theorem lruRun_props {α : Type} :
    ∀ (ops : List (LRUOp α)) (s : LRUState α),
    setTimesPos ops = true → LiveEntries s → s.cache.length ≤ s.capacity →
    LiveEntries (lruRun s ops)
    ∧ (lruRun s ops).capacity = s.capacity
    ∧ (lruRun s ops).cache.length ≤ s.capacity
    ∧ (lruRun s ops).hits + (lruRun s ops).misses
        = s.hits + s.misses + countGets ops := by
  intro ops
  induction ops with
  | nil =>
    intro s _ hl hlen
    exact ⟨hl, rfl, hlen, by simp [lruRun, countGets]⟩
  | cons op rest ih =>
    intro s hpos hl hlen
    cases op with
    | get now k =>
      have hpos2 : setTimesPos rest = true := by
        rw [setTimesPos] at hpos
        exact hpos
      obtain ⟨g1, g2, g3, g4⟩ := lruGet_props now k s
      obtain ⟨r1, r2, r3, r4⟩ := ih (lruGet now k s).2 hpos2 (g4 hl)
        (by rw [g1]; exact Nat.le_trans g3 hlen)
      simp only [lruRun]
      refine ⟨r1, by rw [r2, g1], by rw [← g1]; exact r3, ?_⟩
      rw [r4, g2, countGets]
      omega
    | set now k v ex =>
      rw [setTimesPos, Bool.and_eq_true] at hpos
      have hnow : 1 ≤ now := by simpa using hpos.1
      have hpos2 : setTimesPos rest = true := hpos.2
      obtain ⟨s1, s2, s3, s4, s5⟩ := lruSet_props now k v ex s
      obtain ⟨r1, r2, r3, r4⟩ := ih (lruSet now k v ex s) hpos2 (s5 hnow hl)
        (by rw [s1]; exact s4)
      simp only [lruRun]
      refine ⟨r1, by rw [r2, s1], by rw [← s1]; exact r3, ?_⟩
      rw [r4, s2, s3, countGets]

/-- Expired entries are never served: on a cache whose entries are live, a
lookup of a key whose `expire_at` lies before the current time returns
nothing. -/
theorem lruGet_expired_none {s : LRUState α} (hl : LiveEntries s)
    {key : String} {item : CacheItem α} {e now : Nat}
    (hget : dget key s.cache = some item) (he : item.expireAt = some e)
    (hlt : e < now) : (lruGet now key s).1 = none := by
  obtain ⟨e', he', h1⟩ := hl (key, item) (dget_mem hget)
  rw [he] at he'
  injection he' with he'
  subst he'
  have hchk : expiredCheck item.expireAt now = true := by
    rw [he]
    simp [expiredCheck]
    omega
  simp [lruGet, hget, hchk]

/-- C3: after any finite sequence of `get`/`set` calls (with the positive
wall-clock times `time.time()` yields), (a) the entry count is at most the
capacity, (b) `get` never returns an entry whose `expire_at` is earlier than
the current time, and (c) the hits counter plus the misses counter equals
the number of `get` calls made. -/
theorem lru_cache_invariants {α : Type} (cap ttl : Nat) (ops : List (LRUOp α))
    (hpos : setTimesPos ops = true) :
    (lruRun (lruNew cap ttl) ops).cache.length ≤ cap
    ∧ (∀ (now : Nat) (key : String) (item : CacheItem α) (e : Nat),
        dget key (lruRun (lruNew cap ttl) ops).cache = some item →
        item.expireAt = some e → e < now →
        (lruGet now key (lruRun (lruNew cap ttl) ops)).1 = none)
    ∧ (lruRun (lruNew cap ttl) ops).hits
        + (lruRun (lruNew cap ttl) ops).misses = countGets ops := by
  obtain ⟨hl, hcap, hlen, hcnt⟩ := lruRun_props ops (lruNew cap ttl) hpos
    (by intro p hp; simp [lruNew] at hp) (by simp [lruNew])
  refine ⟨hlen, fun now key item e h1 h2 h3 => lruGet_expired_none hl h1 h2 h3, ?_⟩
  simpa [lruNew] using hcnt

/-- Concrete instantiation of C3: capacity 2, ttl 10, a `set` at time 1 and
a `get` at time 3. -/
theorem lru_cache_invariants_witness :
    (lruRun (lruNew 2 10) [.set 1 "a" (5 : Nat) none, .get 3 "a"]).cache.length ≤ 2
    ∧ (∀ (now : Nat) (key : String) (item : CacheItem Nat) (e : Nat),
        dget key (lruRun (lruNew 2 10) [.set 1 "a" (5 : Nat) none, .get 3 "a"]).cache = some item →
        item.expireAt = some e → e < now →
        (lruGet now key (lruRun (lruNew 2 10) [.set 1 "a" (5 : Nat) none, .get 3 "a"])).1 = none)
    ∧ (lruRun (lruNew 2 10) [.set 1 "a" (5 : Nat) none, .get 3 "a"]).hits
        + (lruRun (lruNew 2 10) [.set 1 "a" (5 : Nat) none, .get 3 "a"]).misses
        = countGets [LRUOp.set 1 "a" (5 : Nat) none, .get 3 "a"] :=
  lru_cache_invariants 2 10 [.set 1 "a" (5 : Nat) none, .get 3 "a"] (by decide)

/-! ### Wildcard segments match exactly one path segment -/

/-- A literal `*` pattern segment is not a `{name}` parameter segment. -/
theorem isParamSeg_star : isParamSeg "*" = false := by decide

/-- Shape of the trie after registering the single-segment pattern `*`: a
literal child named `*` with no parameter name. -/
theorem insertParts_star (h : Nat) (ms : List String) :
    insertParts ["*"] h ms Trie.empty
      = .node [("*", .node [] (some h) ms true none false)] none [] false none false := by
  simp [insertParts, Trie.empty, isParamSeg_star, dget, dset]

/-- Lookup of one non-empty segment at a sole `*` child: the child is taken
(exactly when the segment is `*`, by the literal arm; otherwise by the
fallback arm), no parameter is recorded, and the endpoint is returned. -/
theorem findWalk_star_one (h : Nat) (ms : List String) (s : String) (hs : s ≠ "") :
    findWalk (.node [("*", .node [] (some h) ms true none false)] none [] false none false)
      [s] [] = some (some h, ms, []) := by
  by_cases hstar : s = "*"
  · subst hstar
    simp [findWalk, dget, Trie.children, Trie.paramName]
  · have hstar2 : ¬ ("*" = s) := fun he => hstar he.symm
    simp [findWalk, dget, Trie.children, Trie.paramName, hs, hstar2]

/-- Lookup of two further segments at a sole `*` child dead-ends: the `*`
node has no children, so the second segment matches nothing. -/
theorem findWalk_star_two (h : Nat) (ms : List String) (s t : String)
    (hs : s ≠ "") (ht : t ≠ "") :
    findWalk (.node [("*", .node [] (some h) ms true none false)] none [] false none false)
      [s, t] [] = none := by
  by_cases hstar : s = "*"
  · subst hstar
    simp [findWalk, dget, Trie.children, Trie.paramName, ht]
  · have hstar2 : ¬ ("*" = s) := fun he => hstar he.symm
    simp [findWalk, dget, Trie.children, Trie.paramName, hs, hstar2, ht]

/-- C5 (amended): a registered pattern ending in the wildcard segment `*`
(after any literal prefix) matches exactly one extra path segment, records
no parameter for it, and keeps descending — a path with two segments in the
wildcard position finds no route at all. -/
theorem wildcard_matches_exactly_one_segment :
    ∀ (parts : List String) (h : Nat) (ms : List String) (s t : String),
    (∀ p ∈ parts, p ≠ "" ∧ isParamSeg p = false) → s ≠ "" → t ≠ "" →
    findWalk (insertParts (parts ++ ["*"]) h ms Trie.empty) (parts ++ [s]) []
        = some (some h, ms, [])
    ∧ findWalk (insertParts (parts ++ ["*"]) h ms Trie.empty) (parts ++ [s, t]) []
        = none := by
  intro parts
  induction parts with
  | nil =>
    intro h ms s t _ hs ht
    rw [List.nil_append, List.nil_append, List.nil_append, insertParts_star]
    exact ⟨findWalk_star_one h ms s hs, findWalk_star_two h ms s t hs ht⟩
  | cons p rest ih =>
    intro h ms s t hparts hs ht
    obtain ⟨hp1, hp2⟩ := hparts p (List.mem_cons_self p rest)
    have hins : insertParts (p :: (rest ++ ["*"])) h ms Trie.empty
        = .node [(p, insertParts (rest ++ ["*"]) h ms Trie.empty)] none [] false none false := by
      simp [insertParts, Trie.empty, hp2, dget, dset]
    obtain ⟨ih1, ih2⟩ := ih h ms s t (fun q hq => hparts q (List.mem_cons_of_mem p hq)) hs ht
    constructor
    · rw [List.cons_append, hins]
      simp [findWalk, dget, Trie.children, hp1]
      exact ih1
    · rw [List.cons_append, hins]
      simp [findWalk, dget, Trie.children, hp1]
      exact ih2

/-- Concrete instantiation of the amended C5: with `/files/*` registered,
`/files/a` matches (handler 7, no captured parameters) and `/files/a/b`
does not match. -/
theorem wildcard_matches_exactly_one_segment_witness :
    findWalk (insertParts (["files"] ++ ["*"]) 7 ["GET"] Trie.empty) (["files"] ++ ["a"]) []
        = some (some 7, ["GET"], [])
    ∧ findWalk (insertParts (["files"] ++ ["*"]) 7 ["GET"] Trie.empty) (["files"] ++ ["a", "b"]) []
        = none :=
  wildcard_matches_exactly_one_segment ["files"] 7 ["GET"] "a" "b"
    (by decide) (by decide) (by decide)

end FlawlessAPI
